/-
  Verification of the webtransport-go session multiplexer against its
  specification.

  The Go sources embedded here:
    - conn.go            : the per-session `Conn` object (accept queues,
                           datagram queue, stream opening, header writing)
    - stream adapters    : `maybeConvertStreamError` and the cancel paths
    - session manager    : map `(qconn, sessionID) -> *session`, stream
                           parking with a reordering timeout, datagram pump

  Machine integers are modelled as `Nat` (all the quantities involved are
  unsigned and no overflow is reachable in the modelled paths: session ids
  are 62-bit varint values, error codes 32-bit, and the HTTP/3 reset space
  fits far below 2^64).  Byte strings are `List Nat` with entries < 256.
  Fallible operations return `Option`/`Except`.  Concurrency is modelled
  by explicit interleavings: each lock-protected critical section of the
  Go code becomes one atomic step of a step function, and a run is a fold
  over a list of steps.
-/
import Mathlib

set_option maxHeartbeats 1000000

namespace Webtransport

/-! ### Error-code mapping

The functions `webtransportCodeToHTTPCode` / `httpCodeToWebtransportCode`
are called from `sendStream.CancelWrite`, `receiveStream.CancelRead` and
`maybeConvertStreamError`, but the file defining them is not among the
provided sources; they are modelled from the spec. -/

/-- Modelled from the spec: the first HTTP/3 reset code of the reserved
WebTransport range (`FIRST = 0x52e4a40fa8db`); the definition of the
constant is missing from the provided sources. -/
def firstErrorCode : Nat := 0x52e4a40fa8db

/-- Modelled from the spec: the last HTTP/3 reset code of the reserved
WebTransport range, i.e. the image of the largest 32-bit application
code under the mapping. -/
def lastErrorCode : Nat := firstErrorCode + (2 ^ 32 - 1) + (2 ^ 32 - 1) / 0x1e

/-- Modelled from the spec: `wt_to_http(code) = FIRST + code + floor(code / 0x1e)`
(the greased WebTransport reset-code space); the function
`webtransportCodeToHTTPCode` is used in the sources but defined in a
missing file. -/
def webtransportCodeToHTTPCode (code : Nat) : Nat :=
  firstErrorCode + code + code / 0x1e

/-- Modelled from the spec: the inverse mapping `http_to_wt`.  Codes
outside `[FIRST, LAST]`, and the grease codepoints (those at offset
`0x1e mod 0x1f` from `FIRST`), are invalid and yield `none` (the Go
function `httpCodeToWebtransportCode` returns an error there); a valid
code is shifted back and the grease gaps are compressed out. -/
def httpCodeToWebtransportCode (h : Nat) : Option Nat :=
  if h < firstErrorCode then none
  else if lastErrorCode < h then none
  else
    let shifted := h - firstErrorCode
    if shifted % 0x1f = 0x1e then none
    else some (shifted - shifted / 0x1f)

/-! ### QUIC varint codec

`quicvarint.Write` and `quicvarint.Read` from the quic-go dependency,
used by `writeStreamHeader` / `writeUniStreamHeader` / `SendMessage` and
by the datagram pump / stream hijackers.  `byteAt i k` is the `k`-th
byte (little-endian index) of `i`, i.e. `uint8(i >> (8*k))`. -/

def byteAt (i k : Nat) : Nat := i / 256 ^ k % 256

/-- `quicvarint.Write`: the 1/2/4/8-byte QUIC varint encoding of `i`
(values above `2^62 - 1` panic in Go and are not modelled). -/
def writeVarint (i : Nat) : List Nat :=
  if i ≤ 63 then [i]
  else if i ≤ 16383 then [byteAt i 1 ||| 0x40, byteAt i 0]
  else if i ≤ 2 ^ 30 - 1 then
    [byteAt i 3 ||| 0x80, byteAt i 2, byteAt i 1, byteAt i 0]
  else
    [byteAt i 7 ||| 0xc0, byteAt i 6, byteAt i 5, byteAt i 4,
     byteAt i 3, byteAt i 2, byteAt i 1, byteAt i 0]

/-- `quicvarint.Read` on a byte string: returns the decoded value and the
number of bytes consumed, or `none` on a truncated input. -/
def readVarint : List Nat → Option (Nat × Nat)
  | [] => none
  | b :: rest =>
    let b1 := b % 64
    if b / 64 = 0 then some (b1, 1)
    else if b / 64 = 1 then
      match rest with
      | b2 :: _ => some (b1 * 256 + b2, 2)
      | [] => none
    else if b / 64 = 2 then
      match rest with
      | b2 :: b3 :: b4 :: _ =>
        some (((b1 * 256 + b2) * 256 + b3) * 256 + b4, 4)
      | _ => none
    else
      match rest with
      | b2 :: b3 :: b4 :: b5 :: b6 :: b7 :: b8 :: _ =>
        some (((((((b1 * 256 + b2) * 256 + b3) * 256 + b4) * 256 + b5) *
          256 + b6) * 256 + b7) * 256 + b8, 8)
      | _ => none

/-! ### Go error values and `maybeConvertStreamError`

Go `error` values relevant to the stream adapters.  `errors.As`
unwraps `fmt.Errorf("...%w", e)` wrappers; `quicStreamError` is
`*quic.StreamError` (carrying the raw HTTP/3 reset code),
`wtStreamError` is the package's own `*StreamError` (carrying the
decoded WebTransport code), `convErr` is the error returned by
`httpCodeToWebtransportCode` for an out-of-range or grease code, and
`otherErr` stands for any unrelated error. -/
inductive GoErr where
  | quicStreamError (code : Nat)
  | wtStreamError (code : Nat)
  | convErr (raw : Nat)
  | fmtWrap (raw : Nat) (inner : GoErr)
  | otherErr (tag : Nat)
deriving DecidableEq, Repr

/-- `errors.As(err, &streamErr)` with `streamErr : *quic.StreamError`:
walks the `Unwrap` chain and extracts the reset code of the first
`*quic.StreamError` found. -/
def asQuicStreamError : GoErr → Option Nat
  | .quicStreamError code => some code
  | .fmtWrap _ inner => asQuicStreamError inner
  | _ => none

/-- The `Unwrap` chain of an error: the error itself followed by
everything it (transitively) wraps. -/
def errChain : GoErr → List GoErr
  | .fmtWrap raw inner => .fmtWrap raw inner :: errChain inner
  | e => [e]

/-- `maybeConvertStreamError` (stream adapters): `nil` maps to `nil`; an
error whose chain holds a `*quic.StreamError` is converted through
`httpCodeToWebtransportCode` — on success to `&StreamError{code}`, on
failure to `fmt.Errorf("stream reset, but failed to convert stream
error %d: %w", streamErr.ErrorCode, cerr)`; any other error is returned
unchanged. -/
def maybeConvertStreamError : Option GoErr → Option GoErr
  | none => none
  | some err =>
    match asQuicStreamError err with
    | some code =>
      match httpCodeToWebtransportCode code with
      | none => some (.fmtWrap code (.convErr code))
      | some wt => some (.wtStreamError wt)
    | none => some err

/-! ### The per-session `Conn` object (conn.go)

Streams are identified by opaque `Nat` handles.  The three queues are
the fields of `Conn`: `acceptQueue` / `acceptUniQueue` (Go slices,
unbounded) and `rcvDatagramQueue` (a Go channel of capacity 128, FIFO).
The `ctxDone` flag models whether `c.ctx.Done()` has fired. -/
structure Conn where
  ctxDone : Bool
  acceptQueue : List Nat
  acceptUniQueue : List Nat
  rcvDatagramQueue : List (List Nat)
deriving DecidableEq, Repr

/-- `newConn`: fresh session object with empty queues. -/
def newConn : Conn :=
  { ctxDone := false, acceptQueue := [], acceptUniQueue := [],
    rcvDatagramQueue := [] }

/-- `Conn.addStream`: append to the bidi accept queue (the non-blocking
signal on `acceptChan` only wakes waiters and is not part of the queue
state). -/
def Conn.addStream (c : Conn) (str : Nat) : Conn :=
  { c with acceptQueue := c.acceptQueue ++ [str] }

/-- `Conn.addUniStream`: append to the uni accept queue. -/
def Conn.addUniStream (c : Conn) (str : Nat) : Conn :=
  { c with acceptUniQueue := c.acceptUniQueue ++ [str] }

/-- `Conn.handleDatagram`: non-blocking send into the capacity-128
channel `rcvDatagramQueue`; when the channel is full the `default`
branch drops the new datagram (and logs). -/
def Conn.handleDatagram (c : Conn) (data : List Nat) : Conn :=
  if c.rcvDatagramQueue.length < 128 then
    { c with rcvDatagramQueue := c.rcvDatagramQueue ++ [data] }
  else c

/-- One receive attempt of `Conn.ReceiveMessage`: a ready channel yields
its oldest element; on an empty channel the call blocks (modelled as
`none` with the state unchanged — a blocked caller retries). -/
def Conn.receiveMessagePoll (c : Conn) : Option (List Nat) × Conn :=
  match c.rcvDatagramQueue with
  | [] => (none, c)
  | d :: rest => (some d, { c with rcvDatagramQueue := rest })

/-- In `Conn.AcceptStream` / `AcceptUniStream` with an empty queue, the
`select` blocks on three channels; which ready arm fires is chosen by
the Go runtime.  `sessionCtxDone` is `<-c.ctx.Done()`, `callerCtxDone`
is `<-ctx.Done()`, `acceptSignal` is `<-c.acceptChan`. -/
inductive SelectArm where
  | sessionCtxDone
  | callerCtxDone
  | acceptSignal
deriving DecidableEq, Repr

/-- Outcome of one attempt of `Conn.AcceptStream` (the uni variant is
identical in structure). -/
inductive AcceptOutcome where
  | stream (str : Nat)
  | sessionClosed
  | cancelled
  | retry
deriving DecidableEq, Repr

/-- One attempt of `Conn.AcceptStream`: pop the head of the queue if it
is non-empty; only otherwise enter the `select` (the arm taken, among
those that are ready, is `arm`; on `acceptSignal` the function calls
itself again — `retry`). -/
def Conn.acceptStreamAttempt (c : Conn) (callerCtxDone : Bool)
    (arm : SelectArm) : AcceptOutcome × Conn :=
  match c.acceptQueue with
  | str :: rest => (.stream str, { c with acceptQueue := rest })
  | [] =>
    match arm with
    | .sessionCtxDone => if c.ctxDone then (.sessionClosed, c) else (.retry, c)
    | .callerCtxDone => if callerCtxDone then (.cancelled, c) else (.retry, c)
    | .acceptSignal => (.retry, c)

/-- One attempt of `Conn.AcceptUniStream`. -/
def Conn.acceptUniStreamAttempt (c : Conn) (callerCtxDone : Bool)
    (arm : SelectArm) : AcceptOutcome × Conn :=
  match c.acceptUniQueue with
  | str :: rest => (.stream str, { c with acceptUniQueue := rest })
  | [] =>
    match arm with
    | .sessionCtxDone => if c.ctxDone then (.sessionClosed, c) else (.retry, c)
    | .callerCtxDone => if callerCtxDone then (.cancelled, c) else (.retry, c)
    | .acceptSignal => (.retry, c)

/-! ### Stream headers (conn.go) -/

/-- Modelled from the spec: `webTransportFrameType = 0x41`; the constant
is referenced by `writeStreamHeader` and the stream hijacker but defined
in a file missing from the provided sources. -/
def webTransportFrameType : Nat := 0x41

/-- Modelled from the spec: `webTransportStreamType = 0x54`; likewise
defined in a missing file. -/
def webTransportStreamType : Nat := 0x54

/-- A QUIC send stream as seen by `writeStreamHeader`: the list of
payloads passed to its `Write` calls so far, and whether the next
`Write` fails. -/
structure QSendStream where
  written : List (List Nat)
  writeFails : Bool
deriving DecidableEq, Repr

/-- `Conn.writeStreamHeader`: serialize `varint(webTransportFrameType)`
and `varint(sessionID)` into one buffer and issue a single
`str.Write(buf.Bytes())`; a failing write propagates the error. -/
def writeStreamHeader (sessionID : Nat) (str : QSendStream) :
    Except Unit QSendStream :=
  let buf := writeVarint webTransportFrameType ++ writeVarint sessionID
  if str.writeFails then .error ()
  else .ok { str with written := str.written ++ [buf] }

/-- `Conn.writeUniStreamHeader`: as `writeStreamHeader` with
`webTransportStreamType`. -/
def writeUniStreamHeader (sessionID : Nat) (str : QSendStream) :
    Except Unit QSendStream :=
  let buf := writeVarint webTransportStreamType ++ writeVarint sessionID
  if str.writeFails then .error ()
  else .ok { str with written := str.written ++ [buf] }

/-- `Conn.OpenStream`: `qconn.OpenStream()` yields a fresh stream or
fails (`openResult`); on success the header is written before the
adapter is returned; a failed header write fails the whole call and no
adapter is returned. -/
def openStream (sessionID : Nat) (openResult : Option QSendStream) :
    Except Unit QSendStream :=
  match openResult with
  | none => .error ()
  | some str => writeStreamHeader sessionID str

/-- `Conn.OpenUniStream`: the unidirectional variant. -/
def openUniStream (sessionID : Nat) (openResult : Option QSendStream) :
    Except Unit QSendStream :=
  match openResult with
  | none => .error ()
  | some str => writeUniStreamHeader sessionID str

/-! ### The session manager (the multiplexer core)

All claims concern a single QUIC connection, so the map key
`sessionKey{qconn, id}` is reduced to the session id.  The map value
`session{created, counter, conn}` becomes `SMEntry`: `createdClosed`
models whether the one-shot channel `created` has been closed,
`counter` is the number of parking tasks waiting for the session (a Go
`int`, never negative since every decrement is matched by a prior
increment performed by the spawning caller — modelled as `Nat`), and
`conn` is the attached session object once known. -/
structure SMEntry where
  createdClosed : Bool
  counter : Nat
  conn : Option Conn
deriving DecidableEq, Repr

/-- The sessions map, as an association list with unique keys (a Go
map). -/
abbrev Sessions := List (Nat × SMEntry)

/-- `m.sessions[key]` lookup. -/
def lookupSess : Sessions → Nat → Option SMEntry
  | [], _ => none
  | (k, e) :: rest, sid => if k = sid then some e else lookupSess rest sid

/-- `m.sessions[key] = e` (replace the binding, or add it). -/
def setSess : Sessions → Nat → SMEntry → Sessions
  | [], sid, e => [(sid, e)]
  | (k, e0) :: rest, sid, e =>
    if k = sid then (k, e) :: rest else (k, e0) :: setSess rest sid e

/-- `delete(m.sessions, key)`. -/
def eraseSess : Sessions → Nat → Sessions
  | [], _ => []
  | (k, e0) :: rest, sid =>
    if k = sid then rest else (k, e0) :: eraseSess rest sid

/-- Modelled from the spec: the reserved HTTP/3 reset code
`WEBTRANSPORT_BUFFERED_STREAM_REJECTED = 0x3994bd84` sent on
timeout-rejected early streams; the constant is referenced by
`handleStream` / `handleUniStream` but defined in a missing file. -/
def WebTransportBufferedStreamRejectedErrorCode : Nat := 0x3994bd84

/-- A cancel performed directly on a raw QUIC stream by a parking task
(`str.CancelRead(code)` / `str.CancelWrite(code)`). -/
inductive StreamAction where
  | cancelRead (str code : Nat)
  | cancelWrite (str code : Nat)
deriving DecidableEq, Repr

/-- Manager state: the sessions map, the log of cancels performed by
parking tasks (in order), and whether `m.ctx` has been cancelled by
`Close`. -/
structure SMState where
  sessions : Sessions
  log : List StreamAction
  mgrCtxDone : Bool
deriving DecidableEq, Repr

/-- `newSessionManager`: empty map, manager context alive. -/
def smInit : SMState := { sessions := [], log := [], mgrCtxDone := false }

/-- The arm taken by the `select` of the bidi parking task
`handleStream` (the `session.conn.ctx.Done()` arm is commented out in
this version of the source): the session was created, the per-stream
timer fired, or the manager was closed. -/
inductive BidiParkOutcome where
  | sessionCreated
  | timedOut
  | managerClosed
deriving DecidableEq, Repr

/-- The arm taken by the `select` of the uni parking task
`handleUniStream`, which additionally has the `session.conn.ctx.Done()`
arm. -/
inductive UniParkOutcome where
  | connCtxDone
  | sessionCreated
  | timedOut
  | managerClosed
deriving DecidableEq, Repr

/-- The locked tail of `handleStream` / `handleUniStream`:
`session.counter--`, and once no more streams are waiting while the
session is still outstanding, delete the entry from the map. -/
def smParkExit (sessions : Sessions) (sid : Nat) : Sessions :=
  match lookupSess sessions sid with
  | none => sessions
  | some e =>
    let e2 := { e with counter := e.counter - 1 }
    if e2.counter = 0 ∧ e2.conn = none then eraseSess sessions sid
    else setSess sessions sid e2

/-- `sessionManager.AddStream` (the locked critical section; the
spawned `handleStream` task is a separate step): an established session
receives the stream at once; otherwise the entry is created if absent
and its waiter counter incremented. -/
def smAddStream (st : SMState) (sid str : Nat) : SMState :=
  match lookupSess st.sessions sid with
  | some e =>
    match e.conn with
    | some c =>
      { st with sessions :=
          setSess st.sessions sid { e with conn := some (c.addStream str) } }
    | none =>
      { st with sessions :=
          setSess st.sessions sid { e with counter := e.counter + 1 } }
  | none =>
    let fresh : SMEntry := { createdClosed := false, counter := 1, conn := none }
    { st with sessions := setSess st.sessions sid fresh }

/-- `sessionManager.AddUniStream`: as `smAddStream` for unidirectional
streams. -/
def smAddUniStream (st : SMState) (sid str : Nat) : SMState :=
  match lookupSess st.sessions sid with
  | some e =>
    match e.conn with
    | some c =>
      { st with sessions :=
          setSess st.sessions sid { e with conn := some (c.addUniStream str) } }
    | none =>
      { st with sessions :=
          setSess st.sessions sid { e with counter := e.counter + 1 } }
  | none =>
    let fresh : SMEntry := { createdClosed := false, counter := 1, conn := none }
    { st with sessions := setSess st.sessions sid fresh }

/-- `sessionManager.AddSession`: attach the session object and close
`created`, or insert a fresh entry with `created` pre-closed (the
datagram-pump spawn bookkeeping has no effect on the map). -/
def smAddSession (st : SMState) (sid : Nat) (c : Conn) : SMState :=
  match lookupSess st.sessions sid with
  | some e =>
    { st with sessions :=
        setSess st.sessions sid { e with createdClosed := true, conn := some c } }
  | none =>
    let fresh : SMEntry := { createdClosed := true, counter := 0, conn := some c }
    { st with sessions := setSess st.sessions sid fresh }

/-- The whole bidi parking task `handleStream` as one step, given the
`select` arm the runtime takes: deliver on `created`, cancel both
directions with `WebTransportBufferedStreamRejectedErrorCode` on
timeout, nothing on manager close; then the locked exit `smParkExit`.
An arm whose channel is not ready is not selectable (the step is a
no-op, the task keeps waiting); `none` is a nil-pointer dereference
panic. -/
def smHandleStream (st : SMState) (sid str : Nat)
    (outcome : BidiParkOutcome) : Option SMState :=
  match lookupSess st.sessions sid with
  | none => some st
  | some e =>
    match outcome with
    | .sessionCreated =>
      if e.createdClosed then
        match e.conn with
        | some c =>
          some { st with sessions := smParkExit (setSess st.sessions sid { e with conn := some (c.addStream str) }) sid }
        | none => none
      else some st
    | .timedOut =>
      some { st with
        log := st.log ++
          [.cancelRead str WebTransportBufferedStreamRejectedErrorCode,
           .cancelWrite str WebTransportBufferedStreamRejectedErrorCode],
        sessions := smParkExit st.sessions sid }
    | .managerClosed =>
      if st.mgrCtxDone then some { st with sessions := smParkExit st.sessions sid }
      else some st

/-- The whole uni parking task `handleUniStream` as one step.  Entering
its `select` evaluates the channel expression `session.conn.ctx.Done()`
first; when no session has attached yet (`conn` is `nil`) this
dereferences a nil pointer (`none`). -/
def smHandleUniStream (st : SMState) (sid str : Nat)
    (outcome : UniParkOutcome) : Option SMState :=
  match lookupSess st.sessions sid with
  | none => some st
  | some e =>
    match e.conn with
    | none => none
    | some c =>
      match outcome with
      | .connCtxDone =>
        if c.ctxDone then some { st with sessions := smParkExit st.sessions sid }
        else some st
      | .sessionCreated =>
        if e.createdClosed then
          some { st with sessions := smParkExit (setSess st.sessions sid { e with conn := some (c.addUniStream str) }) sid }
        else some st
      | .timedOut =>
        some { st with
          log := st.log ++
            [.cancelRead str WebTransportBufferedStreamRejectedErrorCode],
          sessions := smParkExit st.sessions sid }
      | .managerClosed =>
        if st.mgrCtxDone then some { st with sessions := smParkExit st.sessions sid }
        else some st

/-- One iteration of the per-connection datagram pump
`sessionManager.handleDatagram`, for one received payload: read a
leading varint session id (on decode failure, log and continue); look
the session up (missing: drop); deliver `data[1:]` to the session's
datagram queue (note: one byte, not the varint's length, is stripped).
`sess.conn.handleDatagram` on an entry whose `conn` is still `nil`
dereferences a nil pointer (`none`). -/
def smHandleDatagramStep (sessions : Sessions) (data : List Nat) :
    Option Sessions :=
  match readVarint data with
  | none => some sessions
  | some (v, _) =>
    match lookupSess sessions v with
    | none => some sessions
    | some e =>
      match e.conn with
      | none => none
      | some c =>
        some (setSess sessions v
          { e with conn := some (c.handleDatagram (data.drop 1)) })

/-- The interleaved complete operations of the manager. -/
inductive SMOp where
  | addStream (sid str : Nat)
  | addUniStream (sid str : Nat)
  | addSession (sid : Nat) (c : Conn)
  | finishStream (sid str : Nat) (outcome : BidiParkOutcome)
  | finishUniStream (sid str : Nat) (outcome : UniParkOutcome)
  | datagram (data : List Nat)
  | close
deriving DecidableEq, Repr

/-- One manager operation; `none` is a runtime panic. -/
def smStep (st : SMState) : SMOp → Option SMState
  | .addStream sid str => some (smAddStream st sid str)
  | .addUniStream sid str => some (smAddUniStream st sid str)
  | .addSession sid c => some (smAddSession st sid c)
  | .finishStream sid str outcome => smHandleStream st sid str outcome
  | .finishUniStream sid str outcome => smHandleUniStream st sid str outcome
  | .datagram data =>
    (smHandleDatagramStep st.sessions data).map fun s => { st with sessions := s }
  | .close => some { st with mgrCtxDone := true }

/-- A run of manager operations from a given state; `none` as soon as
any one of them panics. -/
def smRunFrom (st : SMState) : List SMOp → Option SMState
  | [] => some st
  | op :: ops =>
    match smStep st op with
    | none => none
    | some st2 => smRunFrom st2 ops

/-! ### Arrival/delivery traces for one session

Interleavings of producer and consumer calls on one `Conn`, with the
history needed to state ordering properties: `arrivals` records every
datagram handed to `Conn.handleDatagram` in order, `delivered` every
datagram returned by `Conn.ReceiveMessage`. -/

inductive DGEvent where
  | arrive (data : List Nat)
  | recv
deriving DecidableEq, Repr

structure DGTrace where
  conn : Conn
  arrivals : List (List Nat)
  delivered : List (List Nat)
deriving DecidableEq, Repr

def dgStep (t : DGTrace) : DGEvent → DGTrace
  | .arrive d =>
    { t with conn := t.conn.handleDatagram d, arrivals := t.arrivals ++ [d] }
  | .recv =>
    match t.conn.receiveMessagePoll with
    | (some d, c2) => { t with conn := c2, delivered := t.delivered ++ [d] }
    | (none, c2) => { t with conn := c2 }

def dgInit : DGTrace := { conn := newConn, arrivals := [], delivered := [] }

def dgRun (evs : List DGEvent) : DGTrace := evs.foldl dgStep dgInit

/-- Interleavings of `Conn.addStream` / `Conn.addUniStream` (producer,
the session manager) with accept attempts (consumers), with the
enqueue and delivery histories per direction. -/
inductive AcceptEvent where
  | enqueue (str : Nat)
  | accept (callerCtxDone : Bool) (arm : SelectArm)
deriving DecidableEq, Repr

structure AcceptTrace where
  conn : Conn
  enqueued : List Nat
  accepted : List Nat
deriving DecidableEq, Repr

/-- Bidirectional direction: `Conn.addStream` / `Conn.AcceptStream`. -/
def acceptStep (t : AcceptTrace) : AcceptEvent → AcceptTrace
  | .enqueue s =>
    { t with conn := t.conn.addStream s, enqueued := t.enqueued ++ [s] }
  | .accept cd arm =>
    match t.conn.acceptStreamAttempt cd arm with
    | (.stream s, c2) => { t with conn := c2, accepted := t.accepted ++ [s] }
    | (_, c2) => { t with conn := c2 }

/-- Unidirectional direction: `Conn.addUniStream` /
`Conn.AcceptUniStream`. -/
def acceptUniStep (t : AcceptTrace) : AcceptEvent → AcceptTrace
  | .enqueue s =>
    { t with conn := t.conn.addUniStream s, enqueued := t.enqueued ++ [s] }
  | .accept cd arm =>
    match t.conn.acceptUniStreamAttempt cd arm with
    | (.stream s, c2) => { t with conn := c2, accepted := t.accepted ++ [s] }
    | (_, c2) => { t with conn := c2 }

def acceptInit : AcceptTrace := { conn := newConn, enqueued := [], accepted := [] }

def acceptRun (evs : List AcceptEvent) : AcceptTrace := evs.foldl acceptStep acceptInit

def acceptUniRun (evs : List AcceptEvent) : AcceptTrace :=
  evs.foldl acceptUniStep acceptInit

/-- The session-map invariant: no binding is both waiter-free and
session-less. -/
def MapInv (s : Sessions) : Prop :=
  ∀ p ∈ s, ¬(p.2.counter = 0 ∧ p.2.conn = none)

/-- The datagram-trace invariant: the channel is within capacity and
what was delivered, followed by what is still queued, is a subsequence
of the arrivals in order. -/
def DGInv (t : DGTrace) : Prop :=
  t.conn.rcvDatagramQueue.length ≤ 128 ∧
    (t.delivered ++ t.conn.rcvDatagramQueue).Sublist t.arrivals

end Webtransport

namespace Webtransport

/-! ## Theorems -/

/-- C1: for every WebTransport application error code `c` below `2^32`,
decoding the encoded HTTP/3 reset code yields `c` again:
`http_to_wt (wt_to_http c) = c`. -/
theorem errorCode_roundtrip (c : Nat) (h : c < 2 ^ 32) :
    httpCodeToWebtransportCode (webtransportCodeToHTTPCode c) = some c := by
  unfold httpCodeToWebtransportCode webtransportCodeToHTTPCode lastErrorCode
    firstErrorCode
  simp only
  rw [if_neg (by omega), if_neg (by omega), if_neg (by omega)]
  congr 1
  omega

/-- C1 witness: the round-trip at the concrete code `0x41`. -/
theorem errorCode_roundtrip_witness :
    httpCodeToWebtransportCode (webtransportCodeToHTTPCode 0x41) = some 0x41 :=
  errorCode_roundtrip 0x41 (by decide)

/-- C6, counterexample: for a `quic.StreamError` carrying the gap code
`FIRST + 0x1e`, `maybeConvertStreamError` returns the
`fmt.Errorf`-wrapper around the conversion error; the underlying stream
error itself is not in the result's unwrap chain, so it is replaced, not
wrapped. -/
theorem convert_gap_code_drops_stream_error :
    maybeConvertStreamError (some (.quicStreamError (firstErrorCode + 0x1e))) =
      some (.fmtWrap (firstErrorCode + 0x1e)
        (.convErr (firstErrorCode + 0x1e))) ∧
    GoErr.quicStreamError (firstErrorCode + 0x1e) ∉
      errChain (.fmtWrap (firstErrorCode + 0x1e)
        (.convErr (firstErrorCode + 0x1e))) := by
  constructor
  · rfl
  · decide

/-- C6, amended: `nil` maps to `nil`; an error whose unwrap chain holds
a `quic.StreamError` with an in-range code maps to the `StreamError`
carrying the decoded WebTransport code; a gap/invalid code yields a
mapping error that wraps the conversion error (the underlying stream
error is not retained in the chain); every other error is returned
unchanged. -/
theorem maybeConvertStreamError_cases (e : GoErr) (code wt : Nat) :
    maybeConvertStreamError none = none ∧
    (asQuicStreamError e = some code →
      httpCodeToWebtransportCode code = some wt →
      maybeConvertStreamError (some e) = some (.wtStreamError wt)) ∧
    (asQuicStreamError e = some code →
      httpCodeToWebtransportCode code = none →
      maybeConvertStreamError (some e) =
          some (.fmtWrap code (.convErr code)) ∧
        GoErr.convErr code ∈ errChain (.fmtWrap code (.convErr code))) ∧
    (asQuicStreamError e = none →
      maybeConvertStreamError (some e) = some e) := by
  refine ⟨rfl, ?_, ?_, ?_⟩
  · intro h1 h2
    simp [maybeConvertStreamError, h1, h2]
  · intro h1 h2
    refine ⟨by simp [maybeConvertStreamError, h1, h2], ?_⟩
    simp [errChain]
  · intro h1
    simp [maybeConvertStreamError, h1]

/-- C6 witness: the three fallible cases at concrete errors — a valid
code decodes, a gap code wraps the conversion error, an unrelated error
passes through. -/
theorem maybeConvertStreamError_cases_witness :
    maybeConvertStreamError
        (some (.quicStreamError (webtransportCodeToHTTPCode 0x41))) =
      some (.wtStreamError 0x41) ∧
    maybeConvertStreamError (some (.quicStreamError (firstErrorCode + 0x1e))) =
      some (.fmtWrap (firstErrorCode + 0x1e)
        (.convErr (firstErrorCode + 0x1e))) ∧
    maybeConvertStreamError (some (.otherErr 5)) = some (.otherErr 5) :=
  ⟨(maybeConvertStreamError_cases
      (.quicStreamError (webtransportCodeToHTTPCode 0x41)) _ 0x41).2.1 rfl
      (by decide),
   ((maybeConvertStreamError_cases
      (.quicStreamError (firstErrorCode + 0x1e)) (firstErrorCode + 0x1e)
      0).2.2.1 rfl (by decide)).1,
   (maybeConvertStreamError_cases (.otherErr 5) 0 0).2.2.2 rfl⟩

/-- C8: `OpenStream` (resp. `OpenUniStream`) writes, as one single
write issued before the adapter is returned, exactly
`varint(webTransportFrameType)` (resp. `varint(webTransportStreamType)`)
followed by `varint(sessionID)`, serialized into one buffer; if opening
or the header write fails no adapter is returned. -/
theorem openStream_header (sid : Nat) :
    openStream sid (some { written := [], writeFails := false }) =
      .ok { written := [writeVarint webTransportFrameType ++ writeVarint sid],
            writeFails := false } ∧
    openUniStream sid (some { written := [], writeFails := false }) =
      .ok { written := [writeVarint webTransportStreamType ++ writeVarint sid],
            writeFails := false } ∧
    (∀ str : QSendStream, str.writeFails = true →
      openStream sid (some str) = .error () ∧
        openUniStream sid (some str) = .error ()) ∧
    openStream sid none = .error () ∧
    openUniStream sid none = .error () := by
  refine ⟨rfl, rfl, ?_, rfl, rfl⟩
  intro str h
  constructor
  · simp [openStream, writeStreamHeader, h]
  · simp [openUniStream, writeUniStreamHeader, h]

/-- C8 witness: the header bytes for session id 7 — a fresh stream gets
the single write `varint(0x41) ++ varint(7) = [0x40, 0x41, 0x07]`
(resp. `[0x40, 0x54, 0x07]`), and a failing stream yields an error. -/
theorem openStream_header_witness :
    openStream 7 (some { written := [], writeFails := false }) =
      .ok { written := [[0x40, 0x41, 0x07]], writeFails := false } ∧
    openStream 7 (some { written := [], writeFails := true }) = .error () := by
  constructor
  · exact (openStream_header 7).1
  · exact ((openStream_header 7).2.2.1 { written := [], writeFails := true }
      rfl).1

/-- C10: an accept attempt made while the accept queue is non-empty
returns the head stream regardless of the session's or the caller's
cancellation state; `sessionClosed` / `cancelled` outcomes are only
possible when the queue is empty at the time of the call (both
directions). -/
theorem accept_nonempty_ignores_cancellation (c : Conn) (cd : Bool)
    (arm : SelectArm) (s : Nat) (rest : List Nat) :
    (c.acceptQueue = s :: rest →
      c.acceptStreamAttempt cd arm =
        (.stream s, { c with acceptQueue := rest })) ∧
    (c.acceptUniQueue = s :: rest →
      c.acceptUniStreamAttempt cd arm =
        (.stream s, { c with acceptUniQueue := rest })) ∧
    (∀ out c2, c.acceptStreamAttempt cd arm = (out, c2) →
      out = .sessionClosed ∨ out = .cancelled → c.acceptQueue = []) ∧
    (∀ out c2, c.acceptUniStreamAttempt cd arm = (out, c2) →
      out = .sessionClosed ∨ out = .cancelled → c.acceptUniQueue = []) := by
  refine ⟨?_, ?_, ?_, ?_⟩
  · intro h
    simp [Conn.acceptStreamAttempt, h]
  · intro h
    simp [Conn.acceptUniStreamAttempt, h]
  · intro out c2 heq hout
    cases hq : c.acceptQueue with
    | nil => rfl
    | cons x xs =>
      have h1 : c.acceptStreamAttempt cd arm =
          (.stream x, { c with acceptQueue := xs }) := by
        simp [Conn.acceptStreamAttempt, hq]
      rw [h1] at heq
      injection heq with ha _
      rcases hout with h | h <;> cases ha.trans h
  · intro out c2 heq hout
    cases hq : c.acceptUniQueue with
    | nil => rfl
    | cons x xs =>
      have h1 : c.acceptUniStreamAttempt cd arm =
          (.stream x, { c with acceptUniQueue := xs }) := by
        simp [Conn.acceptUniStreamAttempt, hq]
      rw [h1] at heq
      injection heq with ha _
      rcases hout with h | h <;> cases ha.trans h

/-- C10 witness: with both the session context and the caller context
already done, an accept attempt on a non-empty queue still returns the
head stream (both directions). -/
theorem accept_nonempty_ignores_cancellation_witness :
    Conn.acceptStreamAttempt ⟨true, [7, 8], [9], []⟩ true .sessionCtxDone =
      (.stream 7, ⟨true, [8], [9], []⟩) ∧
    Conn.acceptUniStreamAttempt ⟨true, [7, 8], [9], []⟩ true .callerCtxDone =
      (.stream 9, ⟨true, [7, 8], [], []⟩) :=
  ⟨(accept_nonempty_ignores_cancellation ⟨true, [7, 8], [9], []⟩ true
      .sessionCtxDone 7 [8]).1 rfl,
   (accept_nonempty_ignores_cancellation ⟨true, [7, 8], [9], []⟩ true
      .callerCtxDone 9 []).2.1 rfl⟩

/-- C2: the pump reads the leading varint and routes by session id —
a datagram for an unknown id is dropped and other sessions' queues are
untouched — but it strips exactly one byte (`data[1:]`) rather than the
varint's length.  For session id 64, whose varint takes two bytes, the
session receives `[0x40, 0xAB]` instead of the payload `[0xAB]` that
follows the varint. -/
theorem datagram_pump_strips_one_byte_not_varint :
    writeVarint 64 ++ [0xAB] = [0x40, 0x40, 0xAB] ∧
    readVarint [0x40, 0x40, 0xAB] = some (64, 2) ∧
    List.drop 2 [0x40, 0x40, 0xAB] = [0xAB] ∧
    smHandleDatagramStep [(64, ⟨true, 0, some newConn⟩)] [0x40, 0x40, 0xAB] =
      some [(64, ⟨true, 0, some ⟨false, [], [], [[0x40, 0xAB]]⟩⟩)] ∧
    ([0x40, 0xAB] : List Nat) ≠ [0xAB] ∧
    smHandleDatagramStep
        [(3, ⟨true, 0, some newConn⟩), (4, ⟨true, 0, some newConn⟩)]
        [3, 0x61] =
      some [(3, ⟨true, 0, some ⟨false, [], [], [[0x61]]⟩⟩),
        (4, ⟨true, 0, some newConn⟩)] ∧
    smHandleDatagramStep [(3, ⟨true, 0, some newConn⟩)] [9, 0x61] =
      some [(3, ⟨true, 0, some newConn⟩)] := by
  refine ⟨by decide, by decide, by decide, ?_, by decide, ?_, ?_⟩ <;> rfl

/-- C3: on timeout the bidi parking task cancels both directions of the
stream with `WebTransportBufferedStreamRejectedErrorCode = 0x3994bd84`
and, being the last waiter of a session that never attached, removes
the map entry; but the uni parking task panics (nil-pointer
dereference on `session.conn.ctx` at `select` entry) when no session
has attached, so a timed-out early uni stream is never cancelled with
that code. -/
theorem parking_timeout_cancels_bidi_but_uni_task_panics :
    WebTransportBufferedStreamRejectedErrorCode = 0x3994bd84 ∧
    smRunFrom smInit
        [.addStream 99 77, .finishStream 99 77 .timedOut] =
      some ⟨[], [.cancelRead 77 0x3994bd84, .cancelWrite 77 0x3994bd84],
        false⟩ ∧
    smRunFrom smInit
        [.addUniStream 99 78, .finishUniStream 99 78 .timedOut] = none := by
  exact ⟨rfl, rfl, rfl⟩

/-- C9: after `AddUniStream` for a session that has not yet appeared,
the map holds an entry whose `conn` is still `nil`, and running the uni
parking task `handleUniStream` from that state dereferences the nil
pointer (the `select` evaluates `session.conn.ctx` first), whichever
arm would have been taken. -/
theorem handleUniStream_nil_dereference_reachable :
    smRunFrom smInit [.addUniStream 5 9] =
      some ⟨[(5, ⟨false, 1, none⟩)], [], false⟩ ∧
    lookupSess [(5, ⟨false, 1, none⟩)] 5 = some ⟨false, 1, none⟩ ∧
    SMEntry.conn ⟨false, 1, none⟩ = none ∧
    (∀ outcome : UniParkOutcome,
      smHandleUniStream ⟨[(5, ⟨false, 1, none⟩)], [], false⟩
        5 9 outcome = none) := by
  refine ⟨rfl, rfl, rfl, ?_⟩
  intro outcome
  cases outcome <;> rfl


theorem attempt_on_empty (c : Conn) (cd : Bool) (arm : SelectArm)
    (h : c.acceptQueue = []) :
    (c.acceptStreamAttempt cd arm).2 = c ∧
    ∀ s, (c.acceptStreamAttempt cd arm).1 ≠ AcceptOutcome.stream s := by
  cases arm <;> simp [Conn.acceptStreamAttempt, h] <;> split <;> simp

theorem acceptStep_inv (t : AcceptTrace) (e : AcceptEvent)
    (h : t.accepted ++ t.conn.acceptQueue = t.enqueued) :
    (acceptStep t e).accepted ++ (acceptStep t e).conn.acceptQueue =
      (acceptStep t e).enqueued := by
  cases e with
  | enqueue s =>
    simp [acceptStep, Conn.addStream, ← h, List.append_assoc]
  | accept cd arm =>
    cases hq : t.conn.acceptQueue with
    | nil =>
      obtain ⟨h2, h1⟩ := attempt_on_empty t.conn cd arm hq
      rcases hatt : t.conn.acceptStreamAttempt cd arm with ⟨out, c2⟩
      have hc2 : c2 = t.conn := by rw [hatt] at h2; exact h2
      cases out with
      | stream s => exact absurd (by rw [hatt]) (h1 s)
      | _ => simp [acceptStep, hatt, hc2, h]
    | cons x xs =>
      have hatt : t.conn.acceptStreamAttempt cd arm =
          (.stream x, { t.conn with acceptQueue := xs }) := by
        simp [Conn.acceptStreamAttempt, hq]
      simp [acceptStep, hatt]
      rw [← h, hq]

theorem attemptUni_on_empty (c : Conn) (cd : Bool) (arm : SelectArm)
    (h : c.acceptUniQueue = []) :
    (c.acceptUniStreamAttempt cd arm).2 = c ∧
    ∀ s, (c.acceptUniStreamAttempt cd arm).1 ≠ AcceptOutcome.stream s := by
  cases arm <;> simp [Conn.acceptUniStreamAttempt, h] <;> split <;> simp

theorem acceptUniStep_inv (t : AcceptTrace) (e : AcceptEvent)
    (h : t.accepted ++ t.conn.acceptUniQueue = t.enqueued) :
    (acceptUniStep t e).accepted ++ (acceptUniStep t e).conn.acceptUniQueue =
      (acceptUniStep t e).enqueued := by
  cases e with
  | enqueue s =>
    simp [acceptUniStep, Conn.addUniStream, ← h, List.append_assoc]
  | accept cd arm =>
    cases hq : t.conn.acceptUniQueue with
    | nil =>
      obtain ⟨h2, h1⟩ := attemptUni_on_empty t.conn cd arm hq
      rcases hatt : t.conn.acceptUniStreamAttempt cd arm with ⟨out, c2⟩
      have hc2 : c2 = t.conn := by rw [hatt] at h2; exact h2
      cases out with
      | stream s => exact absurd (by rw [hatt]) (h1 s)
      | _ => simp [acceptUniStep, hatt, hc2, h]
    | cons x xs =>
      have hatt : t.conn.acceptUniStreamAttempt cd arm =
          (.stream x, { t.conn with acceptUniQueue := xs }) := by
        simp [Conn.acceptUniStreamAttempt, hq]
      simp [acceptUniStep, hatt]
      rw [← h, hq]

/-- C7: per direction, streams handed to the session by the manager are
returned by accept attempts in exactly the enqueue order — at every
point of every interleaving, the streams accepted so far followed by
the streams still queued are precisely the streams enqueued so far, in
order (so no stream is skipped, duplicated, or reordered). -/
theorem accept_fifo_per_direction (evs : List AcceptEvent) :
    (acceptRun evs).accepted ++ (acceptRun evs).conn.acceptQueue =
      (acceptRun evs).enqueued ∧
    (acceptUniRun evs).accepted ++ (acceptUniRun evs).conn.acceptUniQueue =
      (acceptUniRun evs).enqueued := by
  constructor
  · have main : ∀ (l : List AcceptEvent) (t : AcceptTrace),
        t.accepted ++ t.conn.acceptQueue = t.enqueued →
        (l.foldl acceptStep t).accepted ++
          (l.foldl acceptStep t).conn.acceptQueue =
          (l.foldl acceptStep t).enqueued := by
      intro l
      induction l with
      | nil => intro t h; exact h
      | cons e rest ih => intro t h; exact ih _ (acceptStep_inv t e h)
    exact main evs acceptInit rfl
  · have main : ∀ (l : List AcceptEvent) (t : AcceptTrace),
        t.accepted ++ t.conn.acceptUniQueue = t.enqueued →
        (l.foldl acceptUniStep t).accepted ++
          (l.foldl acceptUniStep t).conn.acceptUniQueue =
          (l.foldl acceptUniStep t).enqueued := by
      intro l
      induction l with
      | nil => intro t h; exact h
      | cons e rest ih => intro t h; exact ih _ (acceptUniStep_inv t e h)
    exact main evs acceptInit rfl

theorem dgStep_inv (t : DGTrace) (e : DGEvent) (h : DGInv t) :
    DGInv (dgStep t e) := by
  obtain ⟨hlen, hsub⟩ := h
  cases e with
  | arrive d =>
    by_cases hfull : t.conn.rcvDatagramQueue.length < 128
    · constructor
      · simp [dgStep, Conn.handleDatagram, hfull]
        omega
      · simp only [dgStep, Conn.handleDatagram, hfull, if_pos]
        simp only [← List.append_assoc]
        exact hsub.append (List.Sublist.refl [d])
    · constructor
      · simpa [dgStep, Conn.handleDatagram, hfull] using hlen
      · simp only [dgStep, Conn.handleDatagram, hfull, if_neg]
        exact hsub.trans (List.sublist_append_left _ _)
  | recv =>
    cases hq : t.conn.rcvDatagramQueue with
    | nil =>
      constructor
      · simp [dgStep, Conn.receiveMessagePoll, hq]
      · simp only [dgStep, Conn.receiveMessagePoll, hq]
        rw [hq] at hsub
        simpa using hsub
    | cons d rest =>
      constructor
      · rw [hq] at hlen
        simp only [List.length_cons] at hlen
        simp only [dgStep, Conn.receiveMessagePoll, hq]
        omega
      · simp only [dgStep, Conn.receiveMessagePoll, hq]
        rw [hq] at hsub
        simpa [List.append_assoc] using hsub

/-- C5: in every interleaving of datagram arrivals and receives on one
session, the queue never exceeds its capacity of 128; the datagrams
returned by `ReceiveMessage`, followed by those still queued, form a
subsequence of the arrivals in arrival order (so delivery is in arrival
order and only drops occur); and an arrival at a full queue leaves the
session state — in particular every previously queued datagram —
unchanged (the new datagram is the one dropped). -/
theorem datagram_queue_policy (evs : List DGEvent) :
    (dgRun evs).conn.rcvDatagramQueue.length ≤ 128 ∧
    ((dgRun evs).delivered ++ (dgRun evs).conn.rcvDatagramQueue).Sublist
      (dgRun evs).arrivals ∧
    ∀ d : List Nat, ¬(dgRun evs).conn.rcvDatagramQueue.length < 128 →
      (dgRun evs).conn.handleDatagram d = (dgRun evs).conn := by
  have main : ∀ (l : List DGEvent) (t : DGTrace), DGInv t →
      DGInv (l.foldl dgStep t) := by
    intro l
    induction l with
    | nil => intro t h; exact h
    | cons e rest ih => intro t h; exact ih _ (dgStep_inv t e h)
  have hres : DGInv (dgRun evs) :=
    main evs dgInit ⟨by simp [dgInit, newConn], by simp [dgInit, newConn]⟩
  refine ⟨hres.1, hres.2, ?_⟩
  intro d hfull
  simp [Conn.handleDatagram, hfull]

set_option maxRecDepth 100000 in
/-- C5 witness: after 129 arrivals and no receive the queue is full,
and a further datagram is dropped with the state unchanged. -/
theorem datagram_queue_policy_witness :
    (dgRun (List.replicate 129 (DGEvent.arrive [7]))).conn.handleDatagram [9] =
      (dgRun (List.replicate 129 (DGEvent.arrive [7]))).conn :=
  (datagram_queue_policy (List.replicate 129 (DGEvent.arrive [7]))).2.2 [9]
    (by decide)

theorem mem_setSess (s : Sessions) (k : Nat) (v : SMEntry)
    (p : Nat × SMEntry) (h : p ∈ setSess s k v) : p ∈ s ∨ p = (k, v) := by
  induction s with
  | nil => simp [setSess] at h; simp [h]
  | cons q rest ih =>
    rcases q with ⟨k0, e0⟩
    by_cases hk : k0 = k
    · simp [setSess, hk] at h
      rcases h with h | h
      · right; simp [h]
      · left; simp [h]
    · simp [setSess, hk] at h
      rcases h with h | h
      · left; simp [h]
      · rcases ih h with h2 | h2
        · left; simp [h2]
        · right; exact h2

theorem mem_eraseSess (s : Sessions) (k : Nat) (p : Nat × SMEntry)
    (h : p ∈ eraseSess s k) : p ∈ s := by
  induction s with
  | nil => simp [eraseSess] at h
  | cons q rest ih =>
    rcases q with ⟨k0, e0⟩
    by_cases hk : k0 = k
    · simp [eraseSess, hk] at h
      simp [h]
    · simp [eraseSess, hk] at h
      rcases h with h | h
      · simp [h]
      · simp [ih h]

theorem lookupSess_mem (s : Sessions) (k : Nat) (e : SMEntry)
    (h : lookupSess s k = some e) : (k, e) ∈ s := by
  induction s with
  | nil => simp [lookupSess] at h
  | cons q rest ih =>
    rcases q with ⟨k0, e0⟩
    by_cases hk : k0 = k
    · subst hk
      simp [lookupSess] at h
      simp [h]
    · simp [lookupSess, hk] at h
      simp [ih h]

theorem setSess_inv (s : Sessions) (k : Nat) (v : SMEntry) (h : MapInv s)
    (hv : ¬(v.counter = 0 ∧ v.conn = none)) : MapInv (setSess s k v) := by
  intro p hp
  rcases mem_setSess s k v p hp with hmem | rfl
  · exact h p hmem
  · exact hv

theorem smParkExit_inv (s : Sessions) (sid : Nat) (h : MapInv s) :
    MapInv (smParkExit s sid) := by
  unfold smParkExit
  cases hl : lookupSess s sid with
  | none => exact h
  | some e =>
    simp only
    split
    · intro p hp
      exact h p (mem_eraseSess s sid p hp)
    · rename_i hguard
      exact setSess_inv s sid _ h hguard

theorem smAddStream_inv (st : SMState) (sid str : Nat)
    (h : MapInv st.sessions) : MapInv (smAddStream st sid str).sessions := by
  unfold smAddStream
  repeat' split
  all_goals refine setSess_inv _ _ _ h ?_
  all_goals simp

theorem smAddUniStream_inv (st : SMState) (sid str : Nat)
    (h : MapInv st.sessions) : MapInv (smAddUniStream st sid str).sessions := by
  unfold smAddUniStream
  repeat' split
  all_goals refine setSess_inv _ _ _ h ?_
  all_goals simp

theorem smAddSession_inv (st : SMState) (sid : Nat) (c : Conn)
    (h : MapInv st.sessions) : MapInv (smAddSession st sid c).sessions := by
  unfold smAddSession
  repeat' split
  all_goals refine setSess_inv _ _ _ h ?_
  all_goals simp

theorem smHandleStream_inv (st st2 : SMState) (sid str : Nat)
    (outcome : BidiParkOutcome) (h : MapInv st.sessions)
    (hstep : smHandleStream st sid str outcome = some st2) :
    MapInv st2.sessions := by
  unfold smHandleStream at hstep
  repeat' split at hstep
  all_goals first
    | (cases hstep; exact h)
    | (cases hstep; exact smParkExit_inv _ _ h)
    | (cases hstep; refine smParkExit_inv _ _ (setSess_inv _ _ _ h ?_); simp)
    | cases hstep

theorem smHandleUniStream_inv (st st2 : SMState) (sid str : Nat)
    (outcome : UniParkOutcome) (h : MapInv st.sessions)
    (hstep : smHandleUniStream st sid str outcome = some st2) :
    MapInv st2.sessions := by
  unfold smHandleUniStream at hstep
  repeat' split at hstep
  all_goals first
    | (cases hstep; exact h)
    | (cases hstep; exact smParkExit_inv _ _ h)
    | (cases hstep; refine smParkExit_inv _ _ (setSess_inv _ _ _ h ?_); simp)
    | cases hstep

theorem smHandleDatagramStep_inv (s s2 : Sessions) (data : List Nat)
    (h : MapInv s) (hstep : smHandleDatagramStep s data = some s2) :
    MapInv s2 := by
  unfold smHandleDatagramStep at hstep
  repeat' split at hstep
  all_goals first
    | (cases hstep; exact h)
    | (cases hstep; refine setSess_inv _ _ _ h ?_; simp)
    | cases hstep

theorem smStep_inv (st st2 : SMState) (op : SMOp) (h : MapInv st.sessions)
    (hstep : smStep st op = some st2) : MapInv st2.sessions := by
  cases op with
  | addStream sid str =>
    cases hstep
    exact smAddStream_inv st sid str h
  | addUniStream sid str =>
    cases hstep
    exact smAddUniStream_inv st sid str h
  | addSession sid c =>
    cases hstep
    exact smAddSession_inv st sid c h
  | finishStream sid str outcome =>
    exact smHandleStream_inv st st2 sid str outcome h hstep
  | finishUniStream sid str outcome =>
    exact smHandleUniStream_inv st st2 sid str outcome h hstep
  | datagram data =>
    simp only [smStep] at hstep
    cases hd : smHandleDatagramStep st.sessions data with
    | none => rw [hd] at hstep; cases hstep
    | some sd =>
      rw [hd] at hstep
      simp only [Option.map_some'] at hstep
      cases hstep
      exact smHandleDatagramStep_inv st.sessions sd data h hd
  | close =>
    cases hstep
    exact h

theorem smRunFrom_inv (ops : List SMOp) (st st2 : SMState)
    (h : MapInv st.sessions) (hrun : smRunFrom st ops = some st2) :
    MapInv st2.sessions := by
  induction ops generalizing st with
  | nil =>
    simp only [smRunFrom] at hrun
    cases hrun
    exact h
  | cons op rest ih =>
    simp only [smRunFrom] at hrun
    cases hstep : smStep st op with
    | none => rw [hstep] at hrun; cases hrun
    | some stm =>
      rw [hstep] at hrun
      exact ih stm (smStep_inv st stm op h hstep) hrun

/-- C4: after every completed run of manager operations, the sessions
map never contains an entry with `counter = 0` and no attached session
object — an entry is removed exactly when its last waiter leaves while
no session has attached. -/
theorem sessionMap_never_orphaned (ops : List SMOp) (st : SMState)
    (sid : Nat) (e : SMEntry) (hrun : smRunFrom smInit ops = some st)
    (hl : lookupSess st.sessions sid = some e) :
    ¬(e.counter = 0 ∧ e.conn = none) := by
  have hinv : MapInv st.sessions := by
    refine smRunFrom_inv ops smInit st ?_ hrun
    intro p hp
    simp [smInit] at hp
  exact hinv (sid, e) (lookupSess_mem st.sessions sid e hl)

/-- C4 witness: after one `AddStream` for a fresh id, the entry holds a
waiter and no session, and satisfies the invariant. -/
theorem sessionMap_never_orphaned_witness :
    ¬(SMEntry.counter ⟨false, 1, none⟩ = 0 ∧
      SMEntry.conn ⟨false, 1, none⟩ = none) :=
  sessionMap_never_orphaned [.addStream 1 2]
    ⟨[(1, ⟨false, 1, none⟩)], [], false⟩ 1 ⟨false, 1, none⟩ rfl rfl

end Webtransport
